import Mathlib

/-!
Shallow embedding of the movie recommendation program (`app.py`) and proofs
about its recommendation cascade.

The remote TMDB API is modelled by an `Env` of oracles, one per endpoint the
program queries; an oracle answering `none` models the request raising an
exception inside the corresponding `try` block (network failure, malformed
JSON, ...).  Responses are modelled as typed records holding exactly the
fields the program reads; a field the program reads with `dict.get` (absence
tolerated) is an `Option`, a field the program indexes directly is plain.
Python exceptions that the program does NOT catch are modelled by `Except`:
`recommend` returns `Except Err ...`.
-/

namespace MovieRec

/-- `str.lower()` (ASCII model). -/
def pyLower (s : String) : String := ⟨s.data.map Char.toLower⟩

/-- `str.isdigit()`: true iff the string is nonempty and all characters are digits. -/
def pyIsdigit (s : String) : Bool := !s.data.isEmpty && s.data.all Char.isDigit

/-- Python slicing `s[:n]`: the first at most `n` characters. -/
def pyTake (n : Nat) (s : String) : String := ⟨s.data.take n⟩

/-- `str.strip()` of the whitespace `int()` tolerates. -/
def trimChars (cs : List Char) : List Char :=
  ((cs.dropWhile Char.isWhitespace).reverse.dropWhile Char.isWhitespace).reverse

/-- Value of a nonempty all-digit character list, `none` otherwise. -/
def digitsVal (ds : List Char) : Option Nat :=
  if ds.isEmpty then none
  else if ds.all Char.isDigit then
    some (ds.foldl (fun n c => 10 * n + (c.toNat - 48)) 0)
  else none

/-- Python `int(s)` on a string: optional surrounding whitespace, optional
sign, then a nonempty digit run; anything else raises `ValueError` (`none`). -/
def pyInt (s : String) : Option Int :=
  match trimChars s.data with
  | '+' :: ds => (digitsVal ds).map Int.ofNat
  | '-' :: ds => (digitsVal ds).map (fun n => -(n : Int))
  | ds => (digitsVal ds).map Int.ofNat

/-- One step of `str.title()`: the boolean says whether the previous character
was alphabetic. -/
def pyTitleAux : Bool → List Char → List Char
  | _, [] => []
  | prevAlpha, c :: cs =>
    if c.isAlpha then
      (if prevAlpha then c.toLower else c.toUpper) :: pyTitleAux true cs
    else c :: pyTitleAux false cs

/-- Python `str.title()` (ASCII model): first letter of each alphabetic run
uppercased, the rest lowercased. -/
def pyTitle (s : String) : String := ⟨pyTitleAux false s.data⟩

/-- One entry of a `search/movie` response's `results` array, with the fields
the program reads (`id`, `popularity` via `.get(_, 0)`, `poster_path`). -/
structure SearchResult where
  id : Int
  popularity : Option Int
  poster_path : Option String
  deriving DecidableEq

/-- A `genres` array entry (`g["name"]`, and `g_map["id"]` for the vocabulary). -/
structure Genre where
  name : String
  deriving DecidableEq

/-- A `credits.cast` entry. -/
structure CastMember where
  name : String
  deriving DecidableEq

/-- A `credits.crew` entry (`c["name"]`, `c["job"]`). -/
structure CrewMember where
  name : String
  job : String
  deriving DecidableEq

/-- A `similar.results` entry: `movie["id"]`, `movie.get("title")`,
`movie.get("release_date")`. -/
structure SimilarResult where
  id : Int
  title : Option String
  release_date : Option String
  deriving DecidableEq

/-- The `/movie/{id}?append_to_response=similar,credits` response (line 27). -/
structure FullDetails where
  title : Option String
  genres : List Genre
  release_date : Option String
  cast : List CastMember
  crew : List CrewMember
  overview : Option String
  vote_average : Option Int
  similar : List SimilarResult
  deriving DecidableEq

/-- The `belongs_to_collection` object; the program reads `collection.get("id")`. -/
structure CollectionRef where
  id : Option Int
  deriving DecidableEq

/-- The plain `/movie/{id}` response (lines 47 and 110): the program reads
`belongs_to_collection` and `genres` from it. -/
structure PlainDetails where
  belongs_to_collection : Option CollectionRef
  genres : List Genre
  deriving DecidableEq

/-- A `collection/{id}` response's `parts` entry: `item['title']`,
`'release_date' in item` / `item['release_date']`. -/
structure CollectionPart where
  title : String
  release_date : Option String
  deriving DecidableEq

/-- A `collection/{id}` response (`coll.get("parts", [])`). -/
structure CollectionResp where
  parts : List CollectionPart
  deriving DecidableEq

/-- A `genre/movie/list` vocabulary entry (`g_map['name']`, `g_map['id']`). -/
structure GenreEntry where
  id : Int
  name : String
  deriving DecidableEq

/-- A `discover/movie` response entry (`movie.get("title")`). -/
structure DiscoverResult where
  title : Option String
  deriving DecidableEq

/-- The external world: one oracle per endpoint the program queries.  `none`
models the request raising (timeout, connection error, malformed JSON).
`search` is keyed by the query string, `detailsFull` / `detailsPlain` /
`collection` by the interpolated id, `discover` by the joined genre-id list
and the `primary_release_date.gte` year. -/
structure Env where
  search : String → Option (List SearchResult)
  detailsFull : Int → Option FullDetails
  detailsPlain : Int → Option PlainDetails
  collection : Int → Option CollectionResp
  genreList : Option (List GenreEntry)
  discover : List String → Int → Option (List DiscoverResult)

/-- The `movie_info` dict built by `fetch_movie_data_from_api` (lines 32-41). -/
structure MovieInfo where
  title : Option String
  genre : List String
  year : String
  cast : List String
  director : List String
  overview : String
  rating : Option Int
  similar : List SimilarResult
  deriving DecidableEq

/-- Second component of `recommend`'s return value: the `movie_info` dict, or
the title-cased raw input when resolution failed (line 78). -/
inductive MovieResult where
  | found (mi : MovieInfo)
  | notFound (echo : String)
  deriving DecidableEq

/-- A recommendation tuple `(title, poster_url, justification_text)`. -/
abbrev Rec := String × String × String

/-- Uncaught Python exceptions `recommend` can raise: `ValueError` from
`int()` (lines 83, 105), `AttributeError` from `.lower()` on `None`
(line 87), and request errors from the two unguarded Stage-3 fetches
(lines 124 and 136). -/
inductive Err where
  | intConv
  | attrNone
  | genreListFetch
  | discoverFetch
  deriving DecidableEq

def errorPosterURL : String := "https://via.placeholder.com/300x450?text=Error"

def noPosterURL : String := "https://via.placeholder.com/300x450?text=No+Poster"

def notFoundPosterURL : String := "https://via.placeholder.com/300x450?text=Not+Found"

def imageBaseURL : String := "https://image.tmdb.org/t/p/w500"

/-- Justification text of Stage-1 recommendations (line 89). -/
def sameCollectionTag : String := "From the same series/collection"

/-- Justification text of Stage-2 recommendations (line 117). -/
def similarTag : String := "Similar movie based on genre and recency"

/-- Justification text of Stage-3 recommendations (line 141). -/
def fallbackTag : String := "Genre-based fallback recommendation"

/-- Sort key of line 23: `x.get('popularity', 0)`. -/
def popKey (x : SearchResult) : Int := x.popularity.getD 0

instance popRelDec : DecidableRel (fun a b : SearchResult => popKey b ≤ popKey a) :=
  fun a b => inferInstanceAs (Decidable (popKey b ≤ popKey a))

/-- Line 23: `sorted(response['results'], key=..., reverse=True)[0]`.  Python's
`sorted` is stable; a stable descending sort is modelled by `insertionSort`
with the reflexive descending relation (equal keys keep their input order).
`none` iff the result list is empty. -/
def bestMatch (results : List SearchResult) : Option SearchResult :=
  (List.insertionSort (fun a b => popKey b ≤ popKey a) results).head?

/-- `fetch_movie_data_from_api` (lines 14-42); `none` models both failure
paths that `return None, None`. -/
def fetch_movie_data_from_api (env : Env) (movie_title : String) :
    Option (MovieInfo × Int) :=
  match env.search movie_title with
  | none => none
  | some results =>
    match bestMatch results with
    | none => none
    | some best =>
      match env.detailsFull best.id with
      | none => none
      | some d =>
        some
          ({ title := d.title
             genre := d.genres.map Genre.name
             year := pyTake 4 (d.release_date.getD "")
             cast := (d.cast.take 5).map CastMember.name
             director := (d.crew.filter (fun c => c.job == "Director")).map CrewMember.name
             overview := d.overview.getD "No description available."
             rating := d.vote_average
             similar := d.similar }, best.id)

/-- Line 61's filter: `'release_date' in item and item['release_date'][:4].isdigit()`. -/
def partOk (p : CollectionPart) : Bool :=
  match p.release_date with
  | some rd => pyIsdigit (pyTake 4 rd)
  | none => false

/-- `fetch_movie_collection` (lines 44-62).  `if collection_id:` is Python
truthiness on `None`/`0`. -/
def fetch_movie_collection (env : Env) (movie_id : Int) :
    List String × Option Int :=
  match env.detailsPlain movie_id with
  | none => ([], none)
  | some d =>
    match d.belongs_to_collection with
    | none => ([], none)
    | some c =>
      match c.id with
      | none => ([], none)
      | some cid =>
        if cid ≠ 0 then
          match env.collection cid with
          | none => ([], some cid)
          | some coll => ((coll.parts.filter partOk).map CollectionPart.title, some cid)
        else ([], none)

/-- `fetch_poster` (lines 64-73).  `response['results'][0].get('poster_path')`
is truthy iff present and nonempty. -/
def fetch_poster (env : Env) (movie_title : String) : String :=
  match env.search movie_title with
  | none => errorPosterURL
  | some results =>
    match results with
    | [] => noPosterURL
    | r :: _ =>
      match r.poster_path with
      | some p => if p ≠ "" then imageBaseURL ++ p else noPosterURL
      | none => noPosterURL

/-- The cascade's running state: `recommendations` and `used_titles`
(the set is modelled as the list of added titles; only membership is used). -/
structure RecState where
  recs : List Rec
  used : List String
  deriving DecidableEq

/-- Append one recommendation and mark its title used (the paired
`recommendations.append` / `used_titles.add` of each stage). -/
def pushRec (s : RecState) (r : Rec) : RecState :=
  { recs := s.recs ++ [r], used := s.used ++ [r.1] }

/-- `len(recommendations) >= cap` for the early-exit checks; `cap = none` is
the instrumented uncapped variant (the check never fires). -/
def stopAt (cap : Option Nat) (n : Nat) : Bool :=
  match cap with
  | some c => c ≤ n
  | none => false

/-- One Stage-1 iteration's state change (lines 87-90): append unless the
member title case-insensitively equals the resolved title. -/
def stage1Step (env : Env) (mt : String) (t : String) (s : RecState) : RecState :=
  if pyLower t ≠ pyLower mt then pushRec s (t, fetch_poster env t, sameCollectionTag)
  else s

/-- Stage 1 loop (lines 86-92): for each collection member title, run
`stage1Step` (evaluating `.lower()` on a missing resolved title raises),
then break at the cap. -/
def stage1Loop (env : Env) (mtitle : Option String) (cap : Option Nat) :
    List String → RecState → Except Err RecState
  | [], s => .ok s
  | t :: rest, s =>
    match mtitle with
    | none => .error .attrNone
    | some mt =>
      if stopAt cap (stage1Step env mt t s).recs.length then .ok (stage1Step env mt t s)
      else stage1Loop env mtitle cap rest (stage1Step env mt t s)

/-- Sort key of line 97: `x.get("release_date", "1900")`. -/
def simKey (m : SimilarResult) : String := m.release_date.getD "1900"

instance simRelDec : DecidableRel (fun a b : SimilarResult => (simKey b).data ≤ (simKey a).data) :=
  fun a b => inferInstanceAs (Decidable ((simKey b).data ≤ (simKey a).data))

/-- Lines 95-99: `sorted(movie_info['similar'], key=..., reverse=True)`,
a stable descending sort (see `bestMatch`). -/
def stage2Order (l : List SimilarResult) : List SimilarResult :=
  List.insertionSort (fun a b => (simKey b).data ≤ (simKey a).data) l

/-- Stage 2 loop body over the sorted candidates (lines 100-120). -/
def stage2Loop (env : Env) (og : List String) (oy : Int) (cap : Option Nat) :
    List SimilarResult → RecState → Except Err RecState
  | [], s => .ok s
  | m :: rest, s =>
    match m.title, m.release_date with
    | some t, some rd =>
      if t = "" ∨ rd = "" ∨ t ∈ s.used then stage2Loop env og oy cap rest s
      else
        match pyInt (pyTake 4 rd) with
        | none => .error .intConv
        | some y =>
          if y < oy - 2 then stage2Loop env og oy cap rest s
          else
            match env.detailsPlain m.id with
            | none => stage2Loop env og oy cap rest s
            | some pd =>
              if og.any (fun g => (pd.genres.map Genre.name).contains g) then
                let s' := pushRec s (t, fetch_poster env t, similarTag)
                if stopAt cap s'.recs.length then .ok s'
                else stage2Loop env og oy cap rest s'
              else stage2Loop env og oy cap rest s
    | none, _ => stage2Loop env og oy cap rest s
    | some _, none => stage2Loop env og oy cap rest s

/-- Stage 2 (lines 94-120): runs only below the cap, on the sorted candidates. -/
def stage2Run (env : Env) (og : List String) (oy : Int) (cap : Option Nat)
    (sims : List SimilarResult) (s : RecState) : Except Err RecState :=
  if stopAt cap s.recs.length then .ok s
  else stage2Loop env og oy cap (stage2Order sims) s

/-- Lines 126-129: for each original genre, append `str(id)` of every
vocabulary entry whose name matches case-insensitively. -/
def genreIds (og : List String) (gl : List GenreEntry) : List String :=
  (og.map (fun g => (gl.filter (fun gm => pyLower gm.name == pyLower g)).map
    (fun gm => toString gm.id))).flatten

/-- One Stage-3 iteration's state change (lines 138-142): append when the
title is truthy and unused. -/
def stage3Step (env : Env) (m : DiscoverResult) (s : RecState) : RecState :=
  match m.title with
  | some t =>
    if t ≠ "" ∧ t ∉ s.used then pushRec s (t, fetch_poster env t, fallbackTag) else s
  | none => s

/-- Stage 3 loop (lines 137-144); the break check sits at loop level, outside
the append guard. -/
def stage3Loop (env : Env) (cap : Option Nat) :
    List DiscoverResult → RecState → RecState
  | [], s => s
  | m :: rest, s =>
    if stopAt cap (stage3Step env m s).recs.length then stage3Step env m s
    else stage3Loop env cap rest (stage3Step env m s)

/-- Stage 3 (lines 122-144): the genre-vocabulary fetch (line 124) and the
discovery fetch (line 136) are OUTSIDE any `try`, so their failure raises. -/
def stage3Run (env : Env) (og : List String) (oy : Int) (cap : Option Nat)
    (s : RecState) : Except Err RecState :=
  if stopAt cap s.recs.length then .ok s
  else
    match env.genreList with
    | none => .error .genreListFetch
    | some gl =>
      if (genreIds og gl).isEmpty then .ok s
      else
        match env.discover (genreIds og gl) oy with
        | none => .error .discoverFetch
        | some dres => .ok (stage3Loop env cap dres s)

/-- The sentinel entry of line 78. -/
def sentinelRec : Rec := ("Movie not found", notFoundPosterURL, "")

/-- `recommend` (lines 75-146), instrumented with a `cap` so that the
uncapped cascade ("what the stages supply") is the same definition at
`cap = none`; the program is `recommendAux env (some 5)`.
`original_genres` is a Python set built from the genre list; only membership
and a duplicate-free enumeration of it are used, modelled by `dedup`. -/
def recommendAux (env : Env) (cap : Option Nat) (movie_title : String) :
    Except Err (List Rec × MovieResult) :=
  match fetch_movie_data_from_api env movie_title with
  | none => .ok ([sentinelRec], .notFound (pyTitle movie_title))
  | some (mi, mid) =>
    match pyInt mi.year with
    | none => .error .intConv
    | some origYear =>
      match stage1Loop env mi.title cap (fetch_movie_collection env mid).1 ⟨[], []⟩ with
      | .error e => .error e
      | .ok s1 =>
        match stage2Run env mi.genre.dedup origYear cap mi.similar s1 with
        | .error e => .error e
        | .ok s2 =>
          match stage3Run env mi.genre.dedup origYear cap s2 with
          | .error e => .error e
          | .ok s3 => .ok (s3.recs, .found mi)

/-- The program's `recommend`: the cascade capped at 5. -/
def recommend (env : Env) (movie_title : String) :
    Except Err (List Rec × MovieResult) :=
  recommendAux env (some 5) movie_title

/-- Verification instrument: the identical cascade with no cap, i.e. every
candidate all three stages accept. -/
def recommendUncapped (env : Env) (movie_title : String) :
    Except Err (List Rec × MovieResult) :=
  recommendAux env none movie_title

instance exceptDecEq : DecidableEq (Except Err (List Rec × MovieResult)) := by
  intro x y
  cases x <;> cases y
  case error.error a b =>
    exact if h : a = b then .isTrue (by rw [h]) else .isFalse (fun he => by cases he; exact h rfl)
  case error.ok a b => exact .isFalse (fun he => by cases he)
  case ok.error a b => exact .isFalse (fun he => by cases he)
  case ok.ok a b =>
    exact if h : a = b then .isTrue (by rw [h]) else .isFalse (fun he => by cases he; exact h rfl)

/-- The cascade stage a recommendation's justification text identifies. -/
def stageNum (j : String) : Nat :=
  if j = sameCollectionTag then 1 else if j = similarTag then 2 else 3

/-- Relation between an earlier and a later entry of the recommendation list:
stages appear in order, and an entry of Stage 2 or 3 never repeats an earlier
title. -/
def SepRel (a b : Rec) : Prop :=
  stageNum a.2.2 ≤ stageNum b.2.2 ∧ (2 ≤ stageNum b.2.2 → a.1 ≠ b.1)

/-- Invariant carried through the cascade: `used_titles` covers the emitted
titles, entries satisfy `SepRel` pairwise, all tags are from stage `≤ n`, and
Stage-1 entries never case-insensitively equal the resolved title. -/
def CascadeInv (n : Nat) (mtitle : Option String) (s : RecState) : Prop :=
  (∀ r ∈ s.recs, r.1 ∈ s.used) ∧
  List.Pairwise SepRel s.recs ∧
  (∀ r ∈ s.recs, stageNum r.2.2 ≤ n) ∧
  (∀ r ∈ s.recs, r.2.2 = sameCollectionTag →
    ∀ mt, mtitle = some mt → pyLower r.1 ≠ pyLower mt)

/-- Invariant for Stage-2 entries: each one stems from a similar-candidate
that passed the recency and shared-genre checks. -/
def Stage2Ev (env : Env) (sims : List SimilarResult) (og : List String)
    (oy : Int) (s : RecState) : Prop :=
  ∀ r ∈ s.recs, r.2.2 = similarTag →
    ∃ c ∈ sims, c.title = some r.1 ∧
      ∃ rd, c.release_date = some rd ∧
        ∃ y, pyInt (pyTake 4 rd) = some y ∧ oy - 2 ≤ y ∧
          ∃ pd, env.detailsPlain c.id = some pd ∧
            ∃ g, g ∈ og ∧ g ∈ pd.genres.map Genre.name

/-- Modelled from the spec's words for the Stage-2 ordering claim: "empty or
missing dates sort as `\"1900\"`"; to be compared with the program's key
`simKey`, which maps only a MISSING date to `"1900"`. -/
def specStage2Key (m : SimilarResult) : String :=
  match m.release_date with
  | none => "1900"
  | some d => if d = "" then "1900" else d

/-- A search result used by the concrete environments. -/
def srX : SearchResult := ⟨1, some 10, none⟩

/-- Details of a movie with one genre, a 2010 date, no collection, no
similar candidates. -/
def fdPlainMovie : FullDetails :=
  { title := some "Foo", genres := [⟨"Drama"⟩], release_date := some "2010-01-01"
    cast := [], crew := [], overview := none, vote_average := none, similar := [] }

/-- Environment where the title resolves but Stage 3's unguarded
genre-vocabulary fetch fails. -/
def envStage3Abort : Env :=
  { search := fun s => if s = "foo" then some [srX] else none
    detailsFull := fun i => if i = 1 then some fdPlainMovie else none
    detailsPlain := fun _ => none
    collection := fun _ => none
    genreList := none
    discover := fun _ _ => none }

/-- Environment where every lookup inside a `try` block fails (collection,
per-candidate genre, poster) but the two unguarded Stage-3 fetches succeed. -/
def envGuardedFail : Env :=
  { search := fun s => if s = "foo" then some [srX] else none
    detailsFull := fun i =>
      if i = 1 then
        some { title := some "Foo", genres := [⟨"Action"⟩]
               release_date := some "2010-01-01", cast := [], crew := []
               overview := none, vote_average := none, similar := [] }
      else none
    detailsPlain := fun _ => none
    collection := fun _ => none
    genreList := some [⟨28, "Action"⟩]
    discover := fun _ _ => some [⟨some "Zab"⟩] }

/-- Environment whose collection holds two members with the same title and
whose similar list repeats the resolved movie's own title. -/
def envDupTitles : Env :=
  { search := fun s => if s = "foo" then some [srX] else none
    detailsFull := fun i =>
      if i = 1 then
        some { title := some "Foo", genres := [⟨"Drama"⟩]
               release_date := some "2010-01-01", cast := [], crew := []
               overview := none, vote_average := none
               similar := [⟨2, some "Foo", some "2011-01-01"⟩] }
      else none
    detailsPlain := fun i =>
      if i = 1 then some ⟨some ⟨some 7⟩, []⟩
      else if i = 2 then some ⟨none, [⟨"Drama"⟩]⟩ else none
    collection := fun i =>
      if i = 7 then some ⟨[⟨"Bar", some "2011-05-01"⟩, ⟨"Bar", some "2012-05-01"⟩]⟩
      else none
    genreList := some []
    discover := fun _ _ => none }

/-- Environment resolving to a movie whose upstream release date is missing,
so `movie_info["year"]` is the empty string. -/
def envEmptyYear : Env :=
  { search := fun s => if s = "foo" then some [srX] else none
    detailsFull := fun i =>
      if i = 1 then
        some { title := some "Foo", genres := [], release_date := none
               cast := [], crew := [], overview := none, vote_average := none
               similar := [] }
      else none
    detailsPlain := fun _ => none
    collection := fun _ => none
    genreList := none
    discover := fun _ _ => none }

/-- Environment whose search endpoint always answers with zero results. -/
def envNoResults : Env :=
  { search := fun _ => some []
    detailsFull := fun _ => none
    detailsPlain := fun _ => none
    collection := fun _ => none
    genreList := none
    discover := fun _ _ => none }

/-- Environment realising the spec's own Stage-2 example: "Inception" (2010,
Sci-Fi/Action), empty collection, similar list with "Interstellar" (2014,
Sci-Fi) and "Old Movie" (1990, Drama). -/
def envInception : Env :=
  { search := fun s => if s = "inception" then some [srX] else none
    detailsFull := fun i =>
      if i = 1 then
        some { title := some "Inception", genres := [⟨"Sci-Fi"⟩, ⟨"Action"⟩]
               release_date := some "2010-07-15", cast := [], crew := []
               overview := none, vote_average := none
               similar := [⟨3, some "Old Movie", some "1990-01-01"⟩,
                           ⟨2, some "Interstellar", some "2014-11-05"⟩] }
      else none
    detailsPlain := fun i =>
      if i = 1 then some ⟨none, []⟩
      else if i = 2 then some ⟨none, [⟨"Sci-Fi"⟩]⟩
      else if i = 3 then some ⟨none, [⟨"Drama"⟩]⟩ else none
    collection := fun _ => none
    genreList := some []
    discover := fun _ _ => none }

/-- Environment where the search succeeds but the follow-up details fetch
fails. -/
def envDetailsFail : Env :=
  { search := fun s => if s = "foo" then some [srX] else none
    detailsFull := fun _ => none
    detailsPlain := fun _ => none
    collection := fun _ => none
    genreList := none
    discover := fun _ _ => none }

/-- A collection response whose parts have assorted release-date shapes. -/
def collPartsResp : CollectionResp :=
  ⟨[⟨"Good", some "2011-05-01"⟩, ⟨"NoDate", none⟩,
    ⟨"BadDate", some "20xx"⟩, ⟨"ShortDigits", some "99"⟩,
    ⟨"Empty", some ""⟩]⟩

/-- Environment for exercising `fetch_movie_collection`: movie 1 belongs to
collection 7. -/
def envCollParts : Env :=
  { search := fun _ => none
    detailsFull := fun _ => none
    detailsPlain := fun i => if i = 1 then some ⟨some ⟨some 7⟩, []⟩ else none
    collection := fun i => if i = 7 then some collPartsResp else none
    genreList := none
    discover := fun _ _ => none }

/-- Stage-2 candidate whose release-date field is present but empty. -/
def simEmptyDate : SimilarResult := ⟨10, some "A", some ""⟩

/-- Stage-2 candidate with a pre-1900 release date. -/
def simOldDate : SimilarResult := ⟨11, some "B", some "1800-01-01"⟩


/-- The recommendation list `recommend` produces on `envDupTitles`. -/
def dupRecs : List Rec :=
  [("Bar", errorPosterURL, sameCollectionTag), ("Bar", errorPosterURL, sameCollectionTag),
   ("Foo", errorPosterURL, similarTag)]

/-- The movie `envDupTitles` resolves to. -/
def dupMovieInfo : MovieInfo :=
  { title := some "Foo", genre := ["Drama"], year := "2010", cast := [], director := []
    overview := "No description available.", rating := none
    similar := [⟨2, some "Foo", some "2011-01-01"⟩] }

/-- The movie `envInception` resolves to. -/
def inceptionMovieInfo : MovieInfo :=
  { title := some "Inception", genre := ["Sci-Fi", "Action"], year := "2010"
    cast := [], director := [], overview := "No description available.", rating := none
    similar := [⟨3, some "Old Movie", some "1990-01-01"⟩,
                ⟨2, some "Interstellar", some "2014-11-05"⟩] }

/-- The recommendation list `recommend` produces on `envInception`. -/
def inceptionRecs : List Rec := [("Interstellar", errorPosterURL, similarTag)]

/-- The movie `envGuardedFail` resolves to. -/
def gfMovieInfo : MovieInfo :=
  { title := some "Foo", genre := ["Action"], year := "2010"
    cast := [], director := [], overview := "No description available.", rating := none
    similar := [] }

/-- A search-result list with a popularity tie between its second and third
entries. -/
def bmList : List SearchResult := [⟨1, some 5, none⟩, ⟨2, some 7, none⟩, ⟨3, some 7, none⟩]

/-!
Helper lemmas about the cascade loops, followed by the claim theorems.
-/

theorem stopAt_some_iff {c n : Nat} : stopAt (some c) n = true ↔ c ≤ n := by
  simp [stopAt]

theorem stopAt_none_eq (n : Nat) : stopAt none n = false := rfl

theorem pushRec_length (s : RecState) (r : Rec) :
    (pushRec s r).recs.length = s.recs.length + 1 := by
  simp [pushRec]

theorem stage1Loop_cons (env : Env) (mt : String) (cap : Option Nat)
    (t : String) (rest : List String) (s : RecState) :
    stage1Loop env (some mt) cap (t :: rest) s =
      if stopAt cap (stage1Step env mt t s).recs.length then .ok (stage1Step env mt t s)
      else stage1Loop env (some mt) cap rest (stage1Step env mt t s) := rfl

theorem stage1Loop_none_cons (env : Env) (cap : Option Nat)
    (t : String) (rest : List String) (s : RecState) :
    stage1Loop env none cap (t :: rest) s = .error .attrNone := rfl

theorem stage3Loop_cons (env : Env) (cap : Option Nat)
    (m : DiscoverResult) (rest : List DiscoverResult) (s : RecState) :
    stage3Loop env cap (m :: rest) s =
      if stopAt cap (stage3Step env m s).recs.length then stage3Step env m s
      else stage3Loop env cap rest (stage3Step env m s) := rfl

theorem stage1Step_cases (env : Env) (mt t : String) (s : RecState) :
    stage1Step env mt t s = s ∨
      (pyLower t ≠ pyLower mt ∧
        stage1Step env mt t s = pushRec s (t, fetch_poster env t, sameCollectionTag)) := by
  unfold stage1Step
  split
  · next h => exact Or.inr ⟨h, rfl⟩
  · exact Or.inl rfl

theorem stage3Step_cases (env : Env) (m : DiscoverResult) (s : RecState) :
    stage3Step env m s = s ∨
      (∃ t, m.title = some t ∧ t ≠ "" ∧ t ∉ s.used ∧
        stage3Step env m s = pushRec s (t, fetch_poster env t, fallbackTag)) := by
  obtain ⟨mtit⟩ := m
  cases mtit with
  | none => exact Or.inl rfl
  | some t =>
    have e1 : stage3Step env ⟨some t⟩ s
        = if t ≠ "" ∧ t ∉ s.used then pushRec s (t, fetch_poster env t, fallbackTag)
          else s := rfl
    by_cases h : t ≠ "" ∧ t ∉ s.used
    · rw [if_pos h] at e1
      exact Or.inr ⟨t, rfl, h.1, h.2, e1⟩
    · rw [if_neg h] at e1
      exact Or.inl e1

theorem stage2Loop_cons_cases (env : Env) (og : List String) (oy : Int)
    (m : SimilarResult) (rest : List SimilarResult) (s : RecState) :
    (∀ cap, stage2Loop env og oy cap (m :: rest) s = stage2Loop env og oy cap rest s) ∨
    (∃ t rd y pd,
      m.title = some t ∧ m.release_date = some rd ∧ t ≠ "" ∧ rd ≠ "" ∧ t ∉ s.used ∧
      pyInt (pyTake 4 rd) = some y ∧ ¬ y < oy - 2 ∧
      env.detailsPlain m.id = some pd ∧
      og.any (fun g => (pd.genres.map Genre.name).contains g) = true ∧
      ∀ cap, stage2Loop env og oy cap (m :: rest) s =
        (if stopAt cap (pushRec s (t, fetch_poster env t, similarTag)).recs.length
         then .ok (pushRec s (t, fetch_poster env t, similarTag))
         else stage2Loop env og oy cap rest (pushRec s (t, fetch_poster env t, similarTag)))) ∨
    (∃ t rd, m.title = some t ∧ m.release_date = some rd ∧ t ≠ "" ∧ rd ≠ "" ∧
      t ∉ s.used ∧ pyInt (pyTake 4 rd) = none ∧
      ∀ cap, stage2Loop env og oy cap (m :: rest) s = .error .intConv) := by
  obtain ⟨mid, mtit, mrd⟩ := m
  cases mtit with
  | none => exact Or.inl fun cap => rfl
  | some t =>
    cases mrd with
    | none => exact Or.inl fun cap => rfl
    | some rd =>
      have e0 : ∀ cap, stage2Loop env og oy cap (⟨mid, some t, some rd⟩ :: rest) s
          = (if t = "" ∨ rd = "" ∨ t ∈ s.used then stage2Loop env og oy cap rest s
             else
               match pyInt (pyTake 4 rd) with
               | none => .error .intConv
               | some y =>
                 if y < oy - 2 then stage2Loop env og oy cap rest s
                 else
                   match env.detailsPlain mid with
                   | none => stage2Loop env og oy cap rest s
                   | some pd =>
                     if og.any (fun g => (pd.genres.map Genre.name).contains g) then
                       if stopAt cap (pushRec s (t, fetch_poster env t, similarTag)).recs.length
                       then .ok (pushRec s (t, fetch_poster env t, similarTag))
                       else stage2Loop env og oy cap rest
                         (pushRec s (t, fetch_poster env t, similarTag))
                     else stage2Loop env og oy cap rest s) := fun cap => rfl
      by_cases hskip : t = "" ∨ rd = "" ∨ t ∈ s.used
      · refine Or.inl fun cap => ?_
        rw [e0 cap, if_pos hskip]
      · push_neg at hskip
        obtain ⟨ht, hrd, hused⟩ := hskip
        cases hpy : pyInt (pyTake 4 rd) with
        | none =>
          refine Or.inr (Or.inr ⟨t, rd, rfl, rfl, ht, hrd, hused, hpy, fun cap => ?_⟩)
          rw [e0 cap, if_neg ?_]
          · simp only [hpy]
          · push_neg
            exact ⟨ht, hrd, hused⟩
        | some y =>
          by_cases hy : y < oy - 2
          · refine Or.inl fun cap => ?_
            rw [e0 cap, if_neg ?_]
            · simp only [hpy, if_pos hy]
            · push_neg
              exact ⟨ht, hrd, hused⟩
          · cases hpd : env.detailsPlain mid with
            | none =>
              refine Or.inl fun cap => ?_
              rw [e0 cap, if_neg ?_]
              · simp only [hpy, if_neg hy, hpd]
              · push_neg
                exact ⟨ht, hrd, hused⟩
            | some pd =>
              by_cases hg : og.any (fun g => (pd.genres.map Genre.name).contains g) = true
              · refine Or.inr (Or.inl ⟨t, rd, y, pd, rfl, rfl, ht, hrd, hused, hpy, hy, rfl, hg, fun cap => ?_⟩)
                rw [e0 cap, if_neg ?_]
                · simp only [hpy, if_neg hy, hpd, if_pos hg]
                · push_neg
                  exact ⟨ht, hrd, hused⟩
              · refine Or.inl fun cap => ?_
                rw [e0 cap, if_neg ?_]
                · simp only [hpy, if_neg hy, hpd, if_neg hg]
                · push_neg
                  exact ⟨ht, hrd, hused⟩



theorem stage1Step_len_lower (env : Env) (mt t : String) (s : RecState) :
    s.recs.length ≤ (stage1Step env mt t s).recs.length := by
  rcases stage1Step_cases env mt t s with h | ⟨_, h⟩ <;> simp [h, pushRec]

theorem stage1Step_len_upper (env : Env) (mt t : String) (s : RecState) :
    (stage1Step env mt t s).recs.length ≤ s.recs.length + 1 := by
  rcases stage1Step_cases env mt t s with h | ⟨_, h⟩ <;> simp [h, pushRec]

theorem stage3Step_len_lower (env : Env) (m : DiscoverResult) (s : RecState) :
    s.recs.length ≤ (stage3Step env m s).recs.length := by
  rcases stage3Step_cases env m s with h | ⟨t, _, _, _, h⟩ <;> simp [h, pushRec]

theorem stage3Step_len_upper (env : Env) (m : DiscoverResult) (s : RecState) :
    (stage3Step env m s).recs.length ≤ s.recs.length + 1 := by
  rcases stage3Step_cases env m s with h | ⟨t, _, _, _, h⟩ <;> simp [h, pushRec]

theorem stage1Loop_len_mono (env : Env) (mtitle : Option String) (cap : Option Nat) :
    ∀ (l : List String) (s s₂ : RecState),
      stage1Loop env mtitle cap l s = .ok s₂ → s.recs.length ≤ s₂.recs.length := by
  intro l
  induction l with
  | nil => intro s s₂ h; cases h; exact Nat.le_refl _
  | cons t rest ih =>
    intro s s₂ h
    cases mtitle with
    | none => rw [stage1Loop_none_cons] at h; cases h
    | some mt =>
      rw [stage1Loop_cons] at h
      split at h
      · cases h; exact stage1Step_len_lower env mt t s
      · exact (stage1Step_len_lower env mt t s).trans (ih _ _ h)

theorem stage1Loop_bound (env : Env) (mtitle : Option String) (c : Nat) :
    ∀ (l : List String) (s s₂ : RecState),
      stage1Loop env mtitle (some c) l s = .ok s₂ → s.recs.length < c →
      s₂.recs.length ≤ c := by
  intro l
  induction l with
  | nil => intro s s₂ h hlt; cases h; exact Nat.le_of_lt hlt
  | cons t rest ih =>
    intro s s₂ h hlt
    cases mtitle with
    | none => rw [stage1Loop_none_cons] at h; cases h
    | some mt =>
      rw [stage1Loop_cons] at h
      have hub := stage1Step_len_upper env mt t s
      split at h
      · cases h; omega
      · next hstop =>
        have hlt2 : (stage1Step env mt t s).recs.length < c := by
          by_contra hge
          exact hstop (stopAt_some_iff.mpr (Nat.le_of_not_lt hge))
        exact ih _ _ h hlt2

theorem stage1Loop_uncap (env : Env) (mtitle : Option String) (c : Nat) :
    ∀ (l : List String) (s s₂ : RecState),
      stage1Loop env mtitle (some c) l s = .ok s₂ → s₂.recs.length < c →
      stage1Loop env mtitle none l s = .ok s₂ := by
  intro l
  induction l with
  | nil => intro s s₂ h _; cases h; rfl
  | cons t rest ih =>
    intro s s₂ h hlt
    cases mtitle with
    | none => rw [stage1Loop_none_cons] at h; cases h
    | some mt =>
      rw [stage1Loop_cons] at h
      split at h
      · next hstop =>
        cases h
        exact absurd (stopAt_some_iff.mp hstop) (Nat.not_le_of_lt hlt)
      · show stage1Loop env (some mt) none rest (stage1Step env mt t s) = .ok s₂
        exact ih _ _ h hlt

theorem stage1Loop_ok (env : Env) (mt : String) (cap : Option Nat) :
    ∀ (l : List String) (s : RecState), ∃ s₂, stage1Loop env (some mt) cap l s = .ok s₂ := by
  intro l
  induction l with
  | nil => intro s; exact ⟨s, rfl⟩
  | cons t rest ih =>
    intro s
    rw [stage1Loop_cons]
    split
    · exact ⟨_, rfl⟩
    · exact ih _

theorem stage1Loop_none_ok (env : Env) (cap : Option Nat) :
    ∀ (l : List String) (s s₂ : RecState),
      stage1Loop env none cap l s = .ok s₂ → s₂ = s := by
  intro l
  cases l with
  | nil => intro s s₂ h; cases h; rfl
  | cons t rest => intro s s₂ h; rw [stage1Loop_none_cons] at h; cases h

theorem stage2Loop_len_mono (env : Env) (og : List String) (oy : Int) (cap : Option Nat) :
    ∀ (l : List SimilarResult) (s s₂ : RecState),
      stage2Loop env og oy cap l s = .ok s₂ → s.recs.length ≤ s₂.recs.length := by
  intro l
  induction l with
  | nil => intro s s₂ h; cases h; exact Nat.le_refl _
  | cons m rest ih =>
    intro s s₂ h
    rcases stage2Loop_cons_cases env og oy m rest s with heq | ⟨t, rd, y, pd, _, _, _, _, _, _, _, _, _, heq⟩ | ⟨t, rd, _, _, _, _, _, _, heq⟩
    · rw [heq cap] at h; exact ih _ _ h
    · rw [heq cap] at h
      split at h
      · cases h; simp [pushRec]
      · have := ih _ _ h
        simp [pushRec] at this
        omega
    · rw [heq cap] at h; cases h

theorem stage2Loop_bound (env : Env) (og : List String) (oy : Int) (c : Nat) :
    ∀ (l : List SimilarResult) (s s₂ : RecState),
      stage2Loop env og oy (some c) l s = .ok s₂ → s.recs.length < c →
      s₂.recs.length ≤ c := by
  intro l
  induction l with
  | nil => intro s s₂ h hlt; cases h; exact Nat.le_of_lt hlt
  | cons m rest ih =>
    intro s s₂ h hlt
    rcases stage2Loop_cons_cases env og oy m rest s with heq | ⟨t, rd, y, pd, _, _, _, _, _, _, _, _, _, heq⟩ | ⟨t, rd, _, _, _, _, _, _, heq⟩
    · rw [heq (some c)] at h; exact ih _ _ h hlt
    · rw [heq (some c)] at h
      split at h
      · cases h; simp [pushRec]; omega
      · next hstop =>
        refine ih _ _ h ?_
        by_contra hge
        exact hstop (stopAt_some_iff.mpr (Nat.le_of_not_lt hge))
    · rw [heq (some c)] at h; cases h

theorem stage2Loop_uncap (env : Env) (og : List String) (oy : Int) (c : Nat) :
    ∀ (l : List SimilarResult) (s s₂ : RecState),
      stage2Loop env og oy (some c) l s = .ok s₂ → s₂.recs.length < c →
      stage2Loop env og oy none l s = .ok s₂ := by
  intro l
  induction l with
  | nil => intro s s₂ h _; cases h; rfl
  | cons m rest ih =>
    intro s s₂ h hlt
    rcases stage2Loop_cons_cases env og oy m rest s with heq | ⟨t, rd, y, pd, _, _, _, _, _, _, _, _, _, heq⟩ | ⟨t, rd, _, _, _, _, _, _, heq⟩
    · rw [heq (some c)] at h
      rw [heq none]
      exact ih _ _ h hlt
    · rw [heq (some c)] at h
      rw [heq none]
      split at h
      · next hstop =>
        cases h
        exact absurd (stopAt_some_iff.mp hstop) (Nat.not_le_of_lt hlt)
      · show stage2Loop env og oy none rest _ = .ok s₂
        exact ih _ _ h hlt
    · rw [heq (some c)] at h; cases h

theorem stage2Loop_ok (env : Env) (og : List String) (oy : Int) (cap : Option Nat) :
    ∀ (l : List SimilarResult) (s : RecState),
      (∀ m ∈ l, ∀ rd, m.release_date = some rd → rd ≠ "" →
        (pyInt (pyTake 4 rd)).isSome) →
      ∃ s₂, stage2Loop env og oy cap l s = .ok s₂ := by
  intro l
  induction l with
  | nil => intro s _; exact ⟨s, rfl⟩
  | cons m rest ih =>
    intro s hdates
    have hrest : ∀ m ∈ rest, ∀ rd, m.release_date = some rd → rd ≠ "" →
        (pyInt (pyTake 4 rd)).isSome :=
      fun m hm => hdates m (List.mem_cons_of_mem _ hm)
    rcases stage2Loop_cons_cases env og oy m rest s with heq | ⟨t, rd, y, pd, _, _, _, _, _, _, _, _, _, heq⟩ | ⟨t, rd, _, hmrd, _, hrdne, _, hpy, heq⟩
    · rw [heq cap]; exact ih _ hrest
    · rw [heq cap]
      split
      · exact ⟨_, rfl⟩
      · exact ih _ hrest
    · exfalso
      have := hdates m (List.mem_cons_self _ _) rd hmrd hrdne
      rw [hpy] at this
      exact absurd this (by simp)



theorem stage3Loop_len_mono (env : Env) (cap : Option Nat) :
    ∀ (l : List DiscoverResult) (s : RecState),
      s.recs.length ≤ (stage3Loop env cap l s).recs.length := by
  intro l
  induction l with
  | nil => intro s; exact Nat.le_refl _
  | cons m rest ih =>
    intro s
    rw [stage3Loop_cons]
    split
    · exact stage3Step_len_lower env m s
    · exact (stage3Step_len_lower env m s).trans (ih _)

theorem stage3Loop_bound (env : Env) (c : Nat) :
    ∀ (l : List DiscoverResult) (s : RecState),
      s.recs.length < c → (stage3Loop env (some c) l s).recs.length ≤ c := by
  intro l
  induction l with
  | nil => intro s hlt; exact Nat.le_of_lt hlt
  | cons m rest ih =>
    intro s hlt
    rw [stage3Loop_cons]
    have hub := stage3Step_len_upper env m s
    split
    · omega
    · next hstop =>
      refine ih _ ?_
      by_contra hge
      exact hstop (stopAt_some_iff.mpr (Nat.le_of_not_lt hge))

theorem stage3Loop_uncap (env : Env) (c : Nat) :
    ∀ (l : List DiscoverResult) (s : RecState),
      (stage3Loop env (some c) l s).recs.length < c →
      stage3Loop env none l s = stage3Loop env (some c) l s := by
  intro l
  induction l with
  | nil => intro s _; rfl
  | cons m rest ih =>
    intro s hlt
    rw [stage3Loop_cons] at hlt ⊢
    rw [stage3Loop_cons env (some c) m rest s]
    split at hlt
    · next hstop =>
      exact absurd (stopAt_some_iff.mp hstop) (Nat.not_le_of_lt hlt)
    · next hstop =>
      rw [if_neg hstop]
      show stage3Loop env none rest _ = _
      exact ih _ hlt

theorem stage2Run_mono (env : Env) (og : List String) (oy : Int) (cap : Option Nat)
    (sims : List SimilarResult) (s s₂ : RecState)
    (h : stage2Run env og oy cap sims s = .ok s₂) :
    s.recs.length ≤ s₂.recs.length := by
  unfold stage2Run at h
  split at h
  · cases h; exact Nat.le_refl _
  · exact stage2Loop_len_mono env og oy cap _ _ _ h

theorem stage2Run_bound (env : Env) (og : List String) (oy : Int) (c : Nat)
    (sims : List SimilarResult) (s s₂ : RecState)
    (h : stage2Run env og oy (some c) sims s = .ok s₂) (hle : s.recs.length ≤ c) :
    s₂.recs.length ≤ c := by
  unfold stage2Run at h
  split at h
  · cases h; exact hle
  · next hstop =>
    refine stage2Loop_bound env og oy c _ _ _ h ?_
    by_contra hge
    exact hstop (stopAt_some_iff.mpr (Nat.le_of_not_lt hge))

theorem stage2Run_uncap (env : Env) (og : List String) (oy : Int) (c : Nat)
    (sims : List SimilarResult) (s s₂ : RecState)
    (h : stage2Run env og oy (some c) sims s = .ok s₂) (hlt : s₂.recs.length < c) :
    stage2Run env og oy none sims s = .ok s₂ := by
  unfold stage2Run at h ⊢
  split at h
  · next hstop =>
    cases h
    exact absurd (stopAt_some_iff.mp hstop) (Nat.not_le_of_lt hlt)
  · show stage2Loop env og oy none (stage2Order sims) s = .ok s₂
    exact stage2Loop_uncap env og oy c _ _ _ h hlt

theorem stage2Run_ok (env : Env) (og : List String) (oy : Int) (cap : Option Nat)
    (sims : List SimilarResult) (s : RecState)
    (hdates : ∀ m ∈ sims, ∀ rd, m.release_date = some rd → rd ≠ "" →
      (pyInt (pyTake 4 rd)).isSome) :
    ∃ s₂, stage2Run env og oy cap sims s = .ok s₂ := by
  unfold stage2Run
  split
  · exact ⟨s, rfl⟩
  · refine stage2Loop_ok env og oy cap _ s ?_
    intro m hm
    exact hdates m ((List.perm_insertionSort _ sims).mem_iff.mp hm)

theorem stage3Run_mono (env : Env) (og : List String) (oy : Int) (cap : Option Nat)
    (s s₂ : RecState) (h : stage3Run env og oy cap s = .ok s₂) :
    s.recs.length ≤ s₂.recs.length := by
  unfold stage3Run at h
  split at h
  · cases h; exact Nat.le_refl _
  · cases hgl : env.genreList with
    | none => simp only [hgl] at h; cases h
    | some gl =>
      simp only [hgl] at h
      by_cases hemp : (genreIds og gl).isEmpty
      · rw [if_pos hemp] at h
        cases h; exact Nat.le_refl _
      · rw [if_neg hemp] at h
        cases hd : env.discover (genreIds og gl) oy with
        | none => simp only [hd] at h; cases h
        | some dres =>
          simp only [hd] at h
          cases h
          exact stage3Loop_len_mono env cap _ _

theorem stage3Run_bound (env : Env) (og : List String) (oy : Int) (c : Nat)
    (s s₂ : RecState) (h : stage3Run env og oy (some c) s = .ok s₂)
    (hle : s.recs.length ≤ c) : s₂.recs.length ≤ c := by
  unfold stage3Run at h
  split at h
  · cases h; exact hle
  · next hstop =>
    have hlt : s.recs.length < c := by
      by_contra hge
      exact hstop (stopAt_some_iff.mpr (Nat.le_of_not_lt hge))
    cases hgl : env.genreList with
    | none => simp only [hgl] at h; cases h
    | some gl =>
      simp only [hgl] at h
      by_cases hemp : (genreIds og gl).isEmpty
      · rw [if_pos hemp] at h
        cases h; exact hle
      · rw [if_neg hemp] at h
        cases hd : env.discover (genreIds og gl) oy with
        | none => simp only [hd] at h; cases h
        | some dres =>
          simp only [hd] at h
          cases h
          exact stage3Loop_bound env c _ _ hlt

theorem stage3Run_uncap (env : Env) (og : List String) (oy : Int) (c : Nat)
    (s s₂ : RecState) (h : stage3Run env og oy (some c) s = .ok s₂)
    (hlt : s₂.recs.length < c) : stage3Run env og oy none s = .ok s₂ := by
  unfold stage3Run at h ⊢
  split at h
  · next hstop =>
    cases h
    exact absurd (stopAt_some_iff.mp hstop) (Nat.not_le_of_lt hlt)
  · simp only [stopAt_none_eq, Bool.false_eq_true, if_false]
    cases hgl : env.genreList with
    | none => simp only [hgl] at h; cases h
    | some gl =>
      simp only [hgl] at h
      simp only [hgl]
      by_cases hemp : (genreIds og gl).isEmpty
      · rw [if_pos hemp] at h
        rw [if_pos hemp]
        exact h
      · rw [if_neg hemp] at h
        rw [if_neg hemp]
        cases hd : env.discover (genreIds og gl) oy with
        | none => simp only [hd] at h; cases h
        | some dres =>
          simp only [hd] at h
          simp only [hd]
          cases h
          rw [stage3Loop_uncap env c dres s hlt]

theorem stage3Run_ok (env : Env) (og : List String) (oy : Int) (cap : Option Nat)
    (s : RecState) (gl : List GenreEntry) (hgl : env.genreList = some gl)
    (hdisc : ∀ gids y, (env.discover gids y).isSome) :
    ∃ s₂, stage3Run env og oy cap s = .ok s₂ := by
  unfold stage3Run
  split
  · exact ⟨s, rfl⟩
  · simp only [hgl]
    by_cases hemp : (genreIds og gl).isEmpty
    · rw [if_pos hemp]
      exact ⟨s, rfl⟩
    · rw [if_neg hemp]
      cases hd : env.discover (genreIds og gl) oy with
      | none =>
        have hds := hdisc (genreIds og gl) oy
        rw [hd] at hds
        exact absurd hds (by simp)
      | some dres =>
        simp only [hd]
        exact ⟨_, rfl⟩



/-- C3: on every input on which `recommend` returns, the recommendation list
has length at most 5, and when it has fewer than 5 entries the capped run
equals the uncapped cascade, i.e. all three stages together supplied fewer
than 5 accepted candidates. -/
theorem recommend_length_le_five (env : Env) (t : String) (r : List Rec × MovieResult)
    (h : recommend env t = .ok r) :
    r.1.length ≤ 5 ∧ (r.1.length < 5 → recommendUncapped env t = .ok r) := by
  unfold recommend recommendAux at h
  unfold recommendUncapped recommendAux
  cases hf : fetch_movie_data_from_api env t with
  | none =>
    simp only [hf] at h ⊢
    cases h
    exact ⟨by simp, fun _ => rfl⟩
  | some p =>
    obtain ⟨mi, mid⟩ := p
    simp only [hf] at h ⊢
    cases hpy : pyInt mi.year with
    | none => simp only [hpy] at h; cases h
    | some oy =>
      simp only [hpy] at h ⊢
      cases hs1 : stage1Loop env mi.title (some 5) (fetch_movie_collection env mid).1 ⟨[], []⟩ with
      | error e => simp only [hs1] at h; cases h
      | ok s1 =>
        simp only [hs1] at h
        cases hs2 : stage2Run env mi.genre.dedup oy (some 5) mi.similar s1 with
        | error e => simp only [hs2] at h; cases h
        | ok s2 =>
          simp only [hs2] at h
          cases hs3 : stage3Run env mi.genre.dedup oy (some 5) s2 with
          | error e => simp only [hs3] at h; cases h
          | ok s3 =>
            simp only [hs3] at h
            cases h
            have hb1 : s1.recs.length ≤ 5 :=
              stage1Loop_bound env mi.title 5 _ _ _ hs1 (by decide)
            have hb2 : s2.recs.length ≤ 5 :=
              stage2Run_bound env mi.genre.dedup oy 5 _ _ _ hs2 hb1
            have hb3 : s3.recs.length ≤ 5 :=
              stage3Run_bound env mi.genre.dedup oy 5 _ _ hs3 hb2
            refine ⟨hb3, fun hlt => ?_⟩
            have hlt3 : s3.recs.length < 5 := hlt
            have hm3 : s2.recs.length ≤ s3.recs.length :=
              stage3Run_mono env mi.genre.dedup oy _ _ _ hs3
            have hm2 : s1.recs.length ≤ s2.recs.length :=
              stage2Run_mono env mi.genre.dedup oy _ _ _ _ hs2
            have hu1 := stage1Loop_uncap env mi.title 5 _ _ _ hs1 (by omega)
            have hu2 := stage2Run_uncap env mi.genre.dedup oy 5 _ _ _ hs2 (by omega)
            have hu3 := stage3Run_uncap env mi.genre.dedup oy 5 _ _ hs3 (by omega)
            simp only [hu1, hu2, hu3]

/-- C1 (amended): for a resolved movie, arbitrary failures of the guarded
cascade lookups (collection fetch, per-candidate genre fetch, poster fetch;
all unconstrained here) never abort `recommend` — provided the two UNGUARDED
Stage-3 fetches succeed and the year strings parse.  The claim as stated is
refuted by `stage3_genre_fetch_failure_aborts`. -/
theorem cascade_guarded_failures_never_abort (env : Env) (t : String) (mi : MovieInfo) (mid : Int)
    (gl : List GenreEntry)
    (hf : fetch_movie_data_from_api env t = some (mi, mid))
    (htl : mi.title.isSome)
    (hyr : (pyInt mi.year).isSome)
    (hdates : ∀ m ∈ mi.similar, ∀ rd, m.release_date = some rd → rd ≠ "" →
      (pyInt (pyTake 4 rd)).isSome)
    (hgl : env.genreList = some gl)
    (hdisc : ∀ gids y, (env.discover gids y).isSome) :
    ∃ r, recommend env t = .ok r := by
  unfold recommend recommendAux
  simp only [hf]
  obtain ⟨oy, hpy⟩ := Option.isSome_iff_exists.mp hyr
  simp only [hpy]
  obtain ⟨mt, hmt⟩ := Option.isSome_iff_exists.mp htl
  obtain ⟨s1, hs1⟩ :=
    stage1Loop_ok env mt (some 5) (fetch_movie_collection env mid).1 ⟨[], []⟩
  rw [hmt]
  simp only [hs1]
  obtain ⟨s2, hs2⟩ := stage2Run_ok env mi.genre.dedup oy (some 5) mi.similar s1 hdates
  simp only [hs2]
  obtain ⟨s3, hs3⟩ := stage3Run_ok env mi.genre.dedup oy (some 5) s2 gl hgl hdisc
  simp only [hs3]
  exact ⟨_, rfl⟩



theorem stageNum_s1 : stageNum sameCollectionTag = 1 := by decide

theorem stageNum_s2 : stageNum similarTag = 2 := by decide

theorem stageNum_s3 : stageNum fallbackTag = 3 := by decide

theorem cascadeInv_nil (n : Nat) (mtitle : Option String) :
    CascadeInv n mtitle ⟨[], []⟩ := by
  refine ⟨?_, ?_, ?_, ?_⟩ <;> simp [CascadeInv]

theorem cascadeInv_mono (m n : Nat) (hmn : m ≤ n) (mtitle : Option String)
    (s : RecState) (h : CascadeInv m mtitle s) : CascadeInv n mtitle s := by
  obtain ⟨h1, h2, h3, h4⟩ := h
  exact ⟨h1, h2, fun r hr => (h3 r hr).trans hmn, h4⟩

theorem cascadeInv_push (n : Nat) (mtitle : Option String) (s : RecState) (r : Rec)
    (hinv : CascadeInv n mtitle s)
    (htag : stageNum r.2.2 = n)
    (hsep : 2 ≤ stageNum r.2.2 → ∀ a ∈ s.recs, a.1 ≠ r.1)
    (hs1 : r.2.2 = sameCollectionTag → ∀ mt, mtitle = some mt →
      pyLower r.1 ≠ pyLower mt) :
    CascadeInv n mtitle (pushRec s r) := by
  obtain ⟨hcov, hpw, htags, hfirst⟩ := hinv
  refine ⟨?_, ?_, ?_, ?_⟩
  · intro x hx
    rcases List.mem_append.mp hx with hx | hx
    · exact List.mem_append_left _ (hcov x hx)
    · rw [List.mem_singleton.mp hx]
      exact List.mem_append_right _ (List.mem_singleton.mpr rfl)
  · refine List.pairwise_append.mpr ⟨hpw, List.pairwise_singleton _ _, ?_⟩
    intro a ha b hb
    rw [List.mem_singleton.mp hb]
    exact ⟨htag ▸ htags a ha, fun h2 => hsep h2 a ha⟩
  · intro x hx
    rcases List.mem_append.mp hx with hx | hx
    · exact htags x hx
    · rw [List.mem_singleton.mp hx]
      exact Nat.le_of_eq htag
  · intro x hx
    rcases List.mem_append.mp hx with hx | hx
    · exact hfirst x hx
    · rw [List.mem_singleton.mp hx]
      exact hs1
  
theorem stage1Step_inv (env : Env) (mt t : String) (s : RecState)
    (hinv : CascadeInv 1 (some mt) s) :
    CascadeInv 1 (some mt) (stage1Step env mt t s) := by
  rcases stage1Step_cases env mt t s with h | ⟨hne, h⟩
  · rw [h]; exact hinv
  · rw [h]
    refine cascadeInv_push 1 (some mt) s _ hinv stageNum_s1 ?_ ?_
    · rw [stageNum_s1]
      omega
    · intro _ mt2 hmt2
      cases hmt2
      exact hne

theorem stage1Loop_inv (env : Env) (mtitle : Option String) (cap : Option Nat) :
    ∀ (l : List String) (s s₂ : RecState),
      stage1Loop env mtitle cap l s = .ok s₂ → CascadeInv 1 mtitle s →
      CascadeInv 1 mtitle s₂ := by
  intro l
  induction l with
  | nil => intro s s₂ h hinv; cases h; exact hinv
  | cons t rest ih =>
    intro s s₂ h hinv
    cases mtitle with
    | none => rw [stage1Loop_none_cons] at h; cases h
    | some mt =>
      rw [stage1Loop_cons] at h
      split at h
      · cases h; exact stage1Step_inv env mt t s hinv
      · exact ih _ _ h (stage1Step_inv env mt t s hinv)

theorem stage2Loop_inv (env : Env) (og : List String) (oy : Int) (cap : Option Nat)
    (mtitle : Option String) :
    ∀ (l : List SimilarResult) (s s₂ : RecState),
      stage2Loop env og oy cap l s = .ok s₂ → CascadeInv 2 mtitle s →
      CascadeInv 2 mtitle s₂ := by
  intro l
  induction l with
  | nil => intro s s₂ h hinv; cases h; exact hinv
  | cons m rest ih =>
    intro s s₂ h hinv
    rcases stage2Loop_cons_cases env og oy m rest s with heq |
      ⟨t, rd, y, pd, _, _, _, _, hused, _, _, _, _, heq⟩ | ⟨t, rd, _, _, _, _, _, _, heq⟩
    · rw [heq cap] at h; exact ih _ _ h hinv
    · rw [heq cap] at h
      have hpush : CascadeInv 2 mtitle (pushRec s (t, fetch_poster env t, similarTag)) := by
        refine cascadeInv_push 2 mtitle s _ hinv stageNum_s2 ?_ ?_
        · intro _ a ha
          intro he
          have he2 : a.1 = t := he
          exact hused (he2 ▸ hinv.1 a ha)
        · intro habs
          have habs2 : similarTag = sameCollectionTag := habs
          exact absurd habs2 (by decide)
      split at h
      · cases h; exact hpush
      · exact ih _ _ h hpush
    · rw [heq cap] at h; cases h

theorem stage3Step_inv (env : Env) (m : DiscoverResult) (mtitle : Option String)
    (s : RecState) (hinv : CascadeInv 3 mtitle s) :
    CascadeInv 3 mtitle (stage3Step env m s) := by
  rcases stage3Step_cases env m s with h | ⟨t, _, _, hused, h⟩
  · rw [h]; exact hinv
  · rw [h]
    refine cascadeInv_push 3 mtitle s _ hinv stageNum_s3 ?_ ?_
    · intro _ a ha he
      have he2 : a.1 = t := he
      exact hused (he2 ▸ hinv.1 a ha)
    · intro habs
      have habs2 : fallbackTag = sameCollectionTag := habs
      exact absurd habs2 (by decide)

theorem stage3Loop_inv (env : Env) (cap : Option Nat) (mtitle : Option String) :
    ∀ (l : List DiscoverResult) (s : RecState),
      CascadeInv 3 mtitle s → CascadeInv 3 mtitle (stage3Loop env cap l s) := by
  intro l
  induction l with
  | nil => intro s hinv; exact hinv
  | cons m rest ih =>
    intro s hinv
    rw [stage3Loop_cons]
    split
    · exact stage3Step_inv env m mtitle s hinv
    · exact ih _ (stage3Step_inv env m mtitle s hinv)

theorem stage2Run_inv (env : Env) (og : List String) (oy : Int) (cap : Option Nat)
    (mtitle : Option String) (sims : List SimilarResult) (s s₂ : RecState)
    (h : stage2Run env og oy cap sims s = .ok s₂) (hinv : CascadeInv 2 mtitle s) :
    CascadeInv 2 mtitle s₂ := by
  unfold stage2Run at h
  split at h
  · cases h; exact hinv
  · exact stage2Loop_inv env og oy cap mtitle _ _ _ h hinv

theorem stage3Run_inv (env : Env) (og : List String) (oy : Int) (cap : Option Nat)
    (mtitle : Option String) (s s₂ : RecState)
    (h : stage3Run env og oy cap s = .ok s₂) (hinv : CascadeInv 3 mtitle s) :
    CascadeInv 3 mtitle s₂ := by
  unfold stage3Run at h
  split at h
  · cases h; exact hinv
  · cases hgl : env.genreList with
    | none => simp only [hgl] at h; cases h
    | some gl =>
      simp only [hgl] at h
      by_cases hemp : (genreIds og gl).isEmpty
      · rw [if_pos hemp] at h
        cases h; exact hinv
      · rw [if_neg hemp] at h
        cases hd : env.discover (genreIds og gl) oy with
        | none => simp only [hd] at h; cases h
        | some dres =>
          simp only [hd] at h
          cases h
          exact stage3Loop_inv env cap mtitle _ _ hinv



theorem stage2Ev_nil (env : Env) (sims : List SimilarResult) (og : List String)
    (oy : Int) : Stage2Ev env sims og oy ⟨[], []⟩ := by
  intro r hr
  simp at hr

theorem stage2Ev_push_ne (env : Env) (sims : List SimilarResult) (og : List String)
    (oy : Int) (s : RecState) (r : Rec)
    (hev : Stage2Ev env sims og oy s) (hne : r.2.2 ≠ similarTag) :
    Stage2Ev env sims og oy (pushRec s r) := by
  intro x hx htag
  rcases List.mem_append.mp hx with hx | hx
  · exact hev x hx htag
  · rw [List.mem_singleton.mp hx] at htag
    exact absurd htag hne

theorem stage1Loop_ev (env : Env) (sims : List SimilarResult) (og : List String)
    (oy : Int) (mtitle : Option String) (cap : Option Nat) :
    ∀ (l : List String) (s s₂ : RecState),
      stage1Loop env mtitle cap l s = .ok s₂ → Stage2Ev env sims og oy s →
      Stage2Ev env sims og oy s₂ := by
  intro l
  induction l with
  | nil => intro s s₂ h hev; cases h; exact hev
  | cons t rest ih =>
    intro s s₂ h hev
    cases mtitle with
    | none => rw [stage1Loop_none_cons] at h; cases h
    | some mt =>
      have hev2 : Stage2Ev env sims og oy (stage1Step env mt t s) := by
        rcases stage1Step_cases env mt t s with he | ⟨_, he⟩
        · rw [he]; exact hev
        · rw [he]
          refine stage2Ev_push_ne env sims og oy s _ hev ?_
          intro habs
          have habs2 : sameCollectionTag = similarTag := habs
          exact absurd habs2 (by decide)
      rw [stage1Loop_cons] at h
      split at h
      · cases h; exact hev2
      · exact ih _ _ h hev2

theorem stage2Loop_ev (env : Env) (sims : List SimilarResult) (og : List String)
    (oy : Int) (cap : Option Nat) :
    ∀ (l : List SimilarResult) (s s₂ : RecState),
      (∀ m ∈ l, m ∈ sims) →
      stage2Loop env og oy cap l s = .ok s₂ → Stage2Ev env sims og oy s →
      Stage2Ev env sims og oy s₂ := by
  intro l
  induction l with
  | nil => intro s s₂ _ h hev; cases h; exact hev
  | cons m rest ih =>
    intro s s₂ hmem h hev
    have hrest : ∀ x ∈ rest, x ∈ sims := fun x hx => hmem x (List.mem_cons_of_mem _ hx)
    rcases stage2Loop_cons_cases env og oy m rest s with heq |
      ⟨t, rd, y, pd, hm1, hm2, _, _, _, ht6, ht7, ht8, ht9, heq⟩ |
      ⟨t, rd, _, _, _, _, _, _, heq⟩
    · rw [heq cap] at h; exact ih _ _ hrest h hev
    · rw [heq cap] at h
      have hpush : Stage2Ev env sims og oy (pushRec s (t, fetch_poster env t, similarTag)) := by
        intro x hx htag
        rcases List.mem_append.mp hx with hx | hx
        · exact hev x hx htag
        · rw [List.mem_singleton.mp hx]
          obtain ⟨g, hgog, hgc⟩ := List.any_eq_true.mp ht9
          refine ⟨m, hmem m (List.mem_cons_self _ _), hm1, rd, hm2, y, ht6,
            Int.not_lt.mp ht7, pd, ht8, g, hgog, ?_⟩
          simpa using hgc
      split at h
      · cases h; exact hpush
      · exact ih _ _ hrest h hpush
    · rw [heq cap] at h; cases h

theorem stage3Loop_ev (env : Env) (sims : List SimilarResult) (og : List String)
    (oy : Int) (cap : Option Nat) :
    ∀ (l : List DiscoverResult) (s : RecState),
      Stage2Ev env sims og oy s → Stage2Ev env sims og oy (stage3Loop env cap l s) := by
  intro l
  induction l with
  | nil => intro s hev; exact hev
  | cons m rest ih =>
    intro s hev
    have hev2 : Stage2Ev env sims og oy (stage3Step env m s) := by
      rcases stage3Step_cases env m s with he | ⟨t, _, _, _, he⟩
      · rw [he]; exact hev
      · rw [he]
        refine stage2Ev_push_ne env sims og oy s _ hev ?_
        intro habs
        have habs2 : fallbackTag = similarTag := habs
        exact absurd habs2 (by decide)
    rw [stage3Loop_cons]
    split
    · exact hev2
    · exact ih _ hev2

theorem stage2Run_ev (env : Env) (sims : List SimilarResult) (og : List String)
    (oy : Int) (cap : Option Nat) (s s₂ : RecState)
    (h : stage2Run env og oy cap sims s = .ok s₂) (hev : Stage2Ev env sims og oy s) :
    Stage2Ev env sims og oy s₂ := by
  unfold stage2Run at h
  split at h
  · cases h; exact hev
  · refine stage2Loop_ev env sims og oy cap _ _ _ ?_ h hev
    intro x hx
    exact (List.perm_insertionSort _ sims).mem_iff.mp hx

theorem stage3Run_ev (env : Env) (sims : List SimilarResult) (og : List String)
    (oy : Int) (cap : Option Nat) (s s₂ : RecState)
    (h : stage3Run env og oy cap s = .ok s₂) (hev : Stage2Ev env sims og oy s) :
    Stage2Ev env sims og oy s₂ := by
  unfold stage3Run at h
  split at h
  · cases h; exact hev
  · cases hgl : env.genreList with
    | none => simp only [hgl] at h; cases h
    | some gl =>
      simp only [hgl] at h
      by_cases hemp : (genreIds og gl).isEmpty
      · rw [if_pos hemp] at h
        cases h; exact hev
      · rw [if_neg hemp] at h
        cases hd : env.discover (genreIds og gl) oy with
        | none => simp only [hd] at h; cases h
        | some dres =>
          simp only [hd] at h
          cases h
          exact stage3Loop_ev env sims og oy cap _ _ hev



/-- C2 (amended): every Stage-2 or Stage-3 entry title is case-sensitively
distinct from every other entry title, and every Stage-1 entry title differs
case-insensitively from the resolved title.  (Stage-1 entries can duplicate
one another, and Stage-2/3 entries can equal the resolved title — see
`recommend_dedup_counterexample`.) -/
theorem recommend_dedup_amended (env : Env) (t : String) (recs : List Rec) (mi : MovieInfo)
    (h : recommend env t = .ok (recs, .found mi)) :
    (∀ i j : Fin recs.length, i ≠ j → 2 ≤ stageNum (recs.get i).2.2 →
      (recs.get i).1 ≠ (recs.get j).1) ∧
    (∀ r ∈ recs, r.2.2 = sameCollectionTag → ∀ mt, mi.title = some mt →
      pyLower r.1 ≠ pyLower mt) := by
  unfold recommend recommendAux at h
  cases hf : fetch_movie_data_from_api env t with
  | none =>
    simp only [hf] at h
    simp at h
  | some p =>
    obtain ⟨mi0, mid⟩ := p
    simp only [hf] at h
    cases hpy : pyInt mi0.year with
    | none => simp only [hpy] at h; cases h
    | some oy =>
      simp only [hpy] at h
      cases hs1 : stage1Loop env mi0.title (some 5) (fetch_movie_collection env mid).1 ⟨[], []⟩ with
      | error e => simp only [hs1] at h; cases h
      | ok s1 =>
        simp only [hs1] at h
        cases hs2 : stage2Run env mi0.genre.dedup oy (some 5) mi0.similar s1 with
        | error e => simp only [hs2] at h; cases h
        | ok s2 =>
          simp only [hs2] at h
          cases hs3 : stage3Run env mi0.genre.dedup oy (some 5) s2 with
          | error e => simp only [hs3] at h; cases h
          | ok s3 =>
            simp only [hs3] at h
            rw [Except.ok.injEq, Prod.mk.injEq] at h
            obtain ⟨hrecs, hmi⟩ := h
            rw [MovieResult.found.injEq] at hmi
            subst hmi
            subst hrecs
            have hinv1 : CascadeInv 1 mi0.title s1 :=
              stage1Loop_inv env mi0.title (some 5) _ _ _ hs1 (cascadeInv_nil 1 _)
            have hinv2 : CascadeInv 2 mi0.title s2 :=
              stage2Run_inv env mi0.genre.dedup oy (some 5) mi0.title _ _ _ hs2
                (cascadeInv_mono 1 2 (by omega) _ _ hinv1)
            have hinv3 : CascadeInv 3 mi0.title s3 :=
              stage3Run_inv env mi0.genre.dedup oy (some 5) mi0.title _ _ hs3
                (cascadeInv_mono 2 3 (by omega) _ _ hinv2)
            obtain ⟨hcov, hpw, htags, hfirst⟩ := hinv3
            refine ⟨?_, hfirst⟩
            intro i j hne h2
            rcases lt_or_gt_of_ne hne with hlt | hgt
            · have hR := List.pairwise_iff_get.mp hpw i j hlt
              exact hR.2 (le_trans h2 hR.1)
            · have hR := List.pairwise_iff_get.mp hpw j i hgt
              exact fun he => (hR.2 h2) he.symm

/-- C6: every Stage-2 entry of the returned list stems from a similar
candidate whose parsed release year is at least `originalYear - 2` and whose
fetched genre set intersects the resolved movie's genres. -/
theorem stage2_entries_recency_and_genre (env : Env) (t : String) (recs : List Rec) (mi : MovieInfo)
    (h : recommend env t = .ok (recs, .found mi)) :
    ∃ oy, pyInt mi.year = some oy ∧
      ∀ r ∈ recs, r.2.2 = similarTag →
        ∃ c ∈ mi.similar, c.title = some r.1 ∧
          ∃ rd, c.release_date = some rd ∧
            ∃ y, pyInt (pyTake 4 rd) = some y ∧ oy - 2 ≤ y ∧
              ∃ pd, env.detailsPlain c.id = some pd ∧
                ∃ g, g ∈ mi.genre ∧ g ∈ pd.genres.map Genre.name := by
  unfold recommend recommendAux at h
  cases hf : fetch_movie_data_from_api env t with
  | none =>
    simp only [hf] at h
    simp at h
  | some p =>
    obtain ⟨mi0, mid⟩ := p
    simp only [hf] at h
    cases hpy : pyInt mi0.year with
    | none => simp only [hpy] at h; cases h
    | some oy =>
      simp only [hpy] at h
      cases hs1 : stage1Loop env mi0.title (some 5) (fetch_movie_collection env mid).1 ⟨[], []⟩ with
      | error e => simp only [hs1] at h; cases h
      | ok s1 =>
        simp only [hs1] at h
        cases hs2 : stage2Run env mi0.genre.dedup oy (some 5) mi0.similar s1 with
        | error e => simp only [hs2] at h; cases h
        | ok s2 =>
          simp only [hs2] at h
          cases hs3 : stage3Run env mi0.genre.dedup oy (some 5) s2 with
          | error e => simp only [hs3] at h; cases h
          | ok s3 =>
            simp only [hs3] at h
            rw [Except.ok.injEq, Prod.mk.injEq] at h
            obtain ⟨hrecs, hmi⟩ := h
            rw [MovieResult.found.injEq] at hmi
            subst hmi
            subst hrecs
            have hev1 : Stage2Ev env mi0.similar mi0.genre.dedup oy s1 :=
              stage1Loop_ev env mi0.similar mi0.genre.dedup oy mi0.title (some 5) _ _ _ hs1
                (stage2Ev_nil env _ _ oy)
            have hev2 : Stage2Ev env mi0.similar mi0.genre.dedup oy s2 :=
              stage2Run_ev env mi0.similar mi0.genre.dedup oy (some 5) _ _ hs2 hev1
            have hev3 : Stage2Ev env mi0.similar mi0.genre.dedup oy s3 :=
              stage3Run_ev env mi0.similar mi0.genre.dedup oy (some 5) _ _ hs3 hev2
            refine ⟨oy, hpy, ?_⟩
            intro r hr htag
            obtain ⟨c, hc, h1, rd, h2, y, h3, h4, pd, h5, g, hg1, hg2⟩ := hev3 r hr htag
            exact ⟨c, hc, h1, rd, h2, y, h3, h4, pd, h5, g, List.mem_dedup.mp hg1, hg2⟩



/-- C8: on a nonempty search-result list, `bestMatch` (used by
`fetch_movie_data_from_api`) selects an entry of maximal popularity, and on
ties the earliest such entry in upstream order. -/
theorem bestMatch_max_popularity_first_tie :
    ∀ (l : List SearchResult), l ≠ [] →
      ∃ i : Fin l.length, bestMatch l = some (l.get i) ∧
        (∀ j : Fin l.length, popKey (l.get j) ≤ popKey (l.get i)) ∧
        (∀ j : Fin l.length, (j : Nat) < (i : Nat) →
          popKey (l.get j) < popKey (l.get i)) := by
  intro l
  induction l with
  | nil => intro h; exact absurd rfl h
  | cons x xs ih =>
    intro _
    cases xs with
    | nil =>
      refine ⟨⟨0, by simp⟩, by simp [bestMatch], ?_, ?_⟩
      · intro j
        have hj : (j : Nat) = 0 := by
          have h1 : (j : Nat) < 1 := by simp only [List.length_cons, List.length_nil] at j; exact j.isLt
          omega
        have : j = ⟨0, by simp⟩ := Fin.ext hj
        rw [this]
      · intro j hj
        simp at hj
    | cons y ys =>
      obtain ⟨i2, hbm, hmax, hstr⟩ := ih (by simp)
      cases hsort : List.insertionSort (fun a b => popKey b ≤ popKey a) (y :: ys) with
      | nil =>
        exfalso
        have hlen := (List.perm_insertionSort
          (fun a b : SearchResult => popKey b ≤ popKey a) (y :: ys)).length_eq
        rw [hsort] at hlen
        simp at hlen
      | cons hd tl =>
        have hhd : hd = (y :: ys).get i2 := by
          unfold bestMatch at hbm
          rw [hsort] at hbm
          simpa using hbm
        by_cases hcase : popKey hd ≤ popKey x
        · refine ⟨⟨0, by simp⟩, ?_, ?_, ?_⟩
          · show (List.insertionSort (fun a b => popKey b ≤ popKey a) (x :: y :: ys)).head?
              = some ((x :: y :: ys).get ⟨0, by simp⟩)
            rw [List.insertionSort, hsort]
            show (List.orderedInsert _ x (hd :: tl)).head? = some x
            rw [List.orderedInsert, if_pos hcase]
            rfl
          · intro j
            cases j using Fin.cases with
            | zero => exact le_refl _
            | succ j2 =>
              show popKey ((y :: ys).get j2) ≤ popKey x
              exact le_trans (hmax j2) (hhd ▸ hcase)
          · intro j hj
            simp at hj
        · refine ⟨i2.succ, ?_, ?_, ?_⟩
          · show (List.insertionSort (fun a b => popKey b ≤ popKey a) (x :: y :: ys)).head?
              = some ((x :: y :: ys).get i2.succ)
            rw [List.insertionSort, hsort]
            show (List.orderedInsert _ x (hd :: tl)).head? = some ((x :: y :: ys).get i2.succ)
            rw [List.orderedInsert, if_neg hcase]
            show some hd = some ((y :: ys).get i2)
            rw [hhd]
          · intro j
            show popKey ((x :: y :: ys).get j) ≤ popKey ((y :: ys).get i2)
            rw [← hhd]
            cases j using Fin.cases with
            | zero =>
              show popKey x ≤ popKey hd
              exact le_of_lt (lt_of_not_ge hcase)
            | succ j2 =>
              show popKey ((y :: ys).get j2) ≤ popKey hd
              rw [hhd]
              exact hmax j2
          · intro j hj
            show popKey ((x :: y :: ys).get j) < popKey ((y :: ys).get i2)
            rw [← hhd]
            cases j using Fin.cases with
            | zero =>
              show popKey x < popKey hd
              exact lt_of_not_ge hcase
            | succ j2 =>
              show popKey ((y :: ys).get j2) < popKey hd
              rw [hhd]
              refine hstr j2 ?_
              simpa using hj



/-- C5 (amended): Stage 2 visits a permutation of the similar candidates in
lexicographically descending order of the sort key, where a candidate with a
MISSING release-date field gets key "1900" but a PRESENT (even empty) date
keeps its raw string — so empty dates sort last, below "1900".  The claim as
stated is refuted by `stage2_order_spec_key_counterexample`. -/
theorem stage2_order_amended (l : List SimilarResult) :
    List.Perm (stage2Order l) l ∧
    List.Sorted (fun a b => (simKey b).data ≤ (simKey a).data) (stage2Order l) ∧
    (∀ m, m.release_date = none → simKey m = "1900") ∧
    (∀ m rd, m.release_date = some rd → simKey m = rd) := by
  refine ⟨List.perm_insertionSort _ l, ?_, ?_, ?_⟩
  · haveI h1 : IsTotal SimilarResult (fun a b => (simKey b).data ≤ (simKey a).data) :=
      ⟨fun a b => le_total _ _⟩
    haveI h2 : IsTrans SimilarResult (fun a b => (simKey b).data ≤ (simKey a).data) :=
      ⟨fun a b c hab hbc => le_trans hbc hab⟩
    exact List.sorted_insertionSort _ l
  · intro m h
    simp [simKey, h]
  · intro m rd h
    simp [simKey, h]

/-- C5 counterexample: a candidate with an EMPTY date string sorts below a
pre-1900 date, not as if dated "1900" (the spec-modelled key would place it
first); the program's visit order is not descending in the spec's key. -/
theorem stage2_order_spec_key_counterexample :
    stage2Order [simEmptyDate, simOldDate] = [simOldDate, simEmptyDate] ∧
    ¬ List.Sorted (fun a b => (specStage2Key b).data ≤ (specStage2Key a).data)
      (stage2Order [simEmptyDate, simOldDate]) :=
  ⟨by decide, by decide⟩

/-- C7: when the initial search returns zero results, `recommend` returns
exactly one sentinel entry with empty justification and the "Not Found"
placeholder poster, paired with the title-cased raw input. -/
theorem recommend_zero_results_sentinel (env : Env) (t : String) (h : env.search t = some []) :
    recommend env t = .ok ([sentinelRec], .notFound (pyTitle t)) := by
  unfold recommend recommendAux fetch_movie_data_from_api
  rw [h]
  rfl

/-- C10: when the initial search succeeds but the follow-up details fetch
fails, `recommend` returns the identical sentinel shape as for a zero-result
search (cf. C7). -/
theorem recommend_details_failure_sentinel (env : Env) (t : String) (results : List SearchResult)
    (bm : SearchResult) (hs : env.search t = some results)
    (hbm : bestMatch results = some bm) (hdet : env.detailsFull bm.id = none) :
    recommend env t = .ok ([sentinelRec], .notFound (pyTitle t)) := by
  unfold recommend recommendAux fetch_movie_data_from_api
  simp only [hs, hbm, hdet]

/-- C9: for a movie belonging to a collection (truthy id, successful
fetches), `fetch_movie_collection` returns exactly the titles of the parts
whose release-date field is present and whose first up-to-four characters
form a nonempty digit string, in upstream order. -/
theorem fetch_movie_collection_filters_parts (env : Env) (mid : Int) (d : PlainDetails) (c : CollectionRef)
    (cid : Int) (coll : CollectionResp)
    (hd : env.detailsPlain mid = some d)
    (hb : d.belongs_to_collection = some c)
    (hc : c.id = some cid)
    (hnz : cid ≠ 0)
    (hcoll : env.collection cid = some coll) :
    fetch_movie_collection env mid =
      ((coll.parts.filter partOk).map CollectionPart.title, some cid) := by
  unfold fetch_movie_collection
  simp only [hd, hb, hc]
  rw [if_pos hnz]
  simp only [hcoll]

/-- C4 (code bug): a resolved movie with a missing upstream release date
makes `movie_info["year"]` the empty string; `int("")` on line 83 raises and
aborts the request instead of defaulting `originalYear` to 2000 — the
`.get("year", "2000")` default is dead because the key always exists. -/
theorem recommend_unparseable_year_errors : recommend envEmptyYear "foo" = .error .intConv := by decide

/-- C1 counterexample: the title resolves, yet a failure of Stage 3's
genre-vocabulary fetch (line 124, outside any `try`) aborts the whole
request as an uncaught exception. -/
theorem stage3_genre_fetch_failure_aborts :
    (fetch_movie_data_from_api envStage3Abort "foo").isSome = true ∧
    recommend envStage3Abort "foo" = .error .genreListFetch :=
  ⟨by decide, by decide⟩

/-- C2 counterexample: with duplicate collection-member titles the returned
list holds two case-sensitively equal "Bar" entries, and a Stage-2 entry
"Foo" equals the resolved movie's own title. -/
theorem recommend_dedup_counterexample :
    recommend envDupTitles "foo" = .ok (dupRecs, .found dupMovieInfo) ∧
    ¬ List.Pairwise (fun a b : Rec => a.1 ≠ b.1) dupRecs ∧
    ("Foo", errorPosterURL, similarTag) ∈ dupRecs ∧
    dupMovieInfo.title = some "Foo" :=
  ⟨by decide, by decide, by decide, by decide⟩

theorem cascade_guarded_failures_never_abort_witness :
    ∃ r, recommend envGuardedFail "foo" = .ok r :=
  cascade_guarded_failures_never_abort envGuardedFail "foo" gfMovieInfo 1 [⟨28, "Action"⟩] (by decide) (by decide)
    (by decide) (fun m hm => absurd hm (List.not_mem_nil m)) rfl (fun gids y => rfl)

theorem recommend_dedup_amended_witness :
    (∀ i j : Fin dupRecs.length, i ≠ j → 2 ≤ stageNum (dupRecs.get i).2.2 →
      (dupRecs.get i).1 ≠ (dupRecs.get j).1) ∧
    (∀ r ∈ dupRecs, r.2.2 = sameCollectionTag → ∀ mt, dupMovieInfo.title = some mt →
      pyLower r.1 ≠ pyLower mt) :=
  recommend_dedup_amended envDupTitles "foo" dupRecs dupMovieInfo (by decide)

theorem recommend_length_le_five_witness :
    ([sentinelRec] : List Rec).length ≤ 5 ∧
    (([sentinelRec] : List Rec).length < 5 →
      recommendUncapped envNoResults "movie" = .ok ([sentinelRec], .notFound "Movie")) :=
  recommend_length_le_five envNoResults "movie" ([sentinelRec], .notFound "Movie") (by decide)

theorem stage2_entries_recency_and_genre_witness :
    ∃ oy, pyInt inceptionMovieInfo.year = some oy ∧
      ∀ r ∈ inceptionRecs, r.2.2 = similarTag →
        ∃ c ∈ inceptionMovieInfo.similar, c.title = some r.1 ∧
          ∃ rd, c.release_date = some rd ∧
            ∃ y, pyInt (pyTake 4 rd) = some y ∧ oy - 2 ≤ y ∧
              ∃ pd, envInception.detailsPlain c.id = some pd ∧
                ∃ g, g ∈ inceptionMovieInfo.genre ∧ g ∈ pd.genres.map Genre.name :=
  stage2_entries_recency_and_genre envInception "inception" inceptionRecs inceptionMovieInfo (by decide)

theorem recommend_zero_results_sentinel_witness :
    recommend envNoResults "the movie" = .ok ([sentinelRec], .notFound (pyTitle "the movie")) :=
  recommend_zero_results_sentinel envNoResults "the movie" rfl

theorem bestMatch_max_popularity_first_tie_witness :
    ∃ i : Fin bmList.length, bestMatch bmList = some (bmList.get i) ∧
      (∀ j : Fin bmList.length, popKey (bmList.get j) ≤ popKey (bmList.get i)) ∧
      (∀ j : Fin bmList.length, (j : Nat) < (i : Nat) →
        popKey (bmList.get j) < popKey (bmList.get i)) :=
  bestMatch_max_popularity_first_tie bmList (by decide)

theorem recommend_details_failure_sentinel_witness :
    recommend envDetailsFail "foo" = .ok ([sentinelRec], .notFound (pyTitle "foo")) :=
  recommend_details_failure_sentinel envDetailsFail "foo" [srX] srX rfl rfl rfl


/-- Witness for C9 at a concrete collection with assorted date shapes. -/
theorem fetch_movie_collection_filters_parts_witness :
    fetch_movie_collection envCollParts 1 =
      ((collPartsResp.parts.filter partOk).map CollectionPart.title, some 7) :=
  fetch_movie_collection_filters_parts envCollParts 1 ⟨some ⟨some 7⟩, []⟩ ⟨some 7⟩ 7
    collPartsResp rfl rfl rfl (by decide) rfl

end MovieRec
